import Mathlib

/-!
Verification of the KQL query executor (`.github/scripts/kql_query_executor`):
a shallow embedding of `model.py`, `config.py`, `execute.py` and the
orchestration loop of `main.py`, together with theorems settling the spec's
claims about output resolution, command construction, per-file failure
semantics, discovery and construction-time validation.

Strings are embedded as `List Char`; the filesystem and the external engine
(`az` subprocess, `os.makedirs`, file writes, compression) are oracles
collected in environment structures, except where Python semantics is fixed
(e.g. `os.makedirs("")` always raises `FileNotFoundError`).
-/

set_option maxRecDepth 4000

namespace KQL

/-- Python `str.isspace` restricted to the ASCII whitespace characters
(space, tab, newline, carriage return, vertical tab, form feed). -/
def pyIsSpace (c : Char) : Bool :=
  c = ' ' || c = '\t' || c = '\n' || c = '\r' || c = '\x0b' || c = '\x0c'

/-- Python `str.strip()`: drop leading and trailing whitespace. -/
def pyStrip (l : List Char) : List Char :=
  ((l.dropWhile pyIsSpace).reverse.dropWhile pyIsSpace).reverse

/-- `posixpath.join(a, b)` for a single pair of components. -/
def pyJoin (a b : List Char) : List Char :=
  if b.head? = some '/' then b
  else if a = [] then b
  else if a.getLast? = some '/' then a ++ b
  else a ++ '/' :: b

/-- `os.path.basename`: the part of the path after the last slash. -/
def osBasename (p : List Char) : List Char :=
  (p.reverse.takeWhile (fun c => !(c == '/'))).reverse

/-- `os.path.dirname`: everything up to the last slash, with trailing slashes
stripped unless the result is all slashes; `""` when there is no slash. -/
def osDirname (p : List Char) : List Char :=
  let pre := (p.reverse.dropWhile (fun c => !(c == '/'))).reverse
  if pre.isEmpty then []
  else if pre.all (fun c => c == '/') then pre
  else (pre.reverse.dropWhile (fun c => c == '/')).reverse

/-- Python `s.replace("\n", " ")`. -/
def replaceNewlines (l : List Char) : List Char :=
  l.map (fun c => if c = '\n' then ' ' else c)

/-- Python `s.replace("  ", " ")`: one left-to-right pass replacing each
non-overlapping occurrence of two consecutive spaces by a single space. -/
def replaceTwoSpaces : List Char → List Char
  | [] => []
  | [c] => [c]
  | c1 :: c2 :: rest =>
    if c1 = ' ' ∧ c2 = ' ' then ' ' :: replaceTwoSpaces rest
    else c1 :: replaceTwoSpaces (c2 :: rest)

/-- The filter-expression cleanup from `execute.py`:
`fmt.query.strip().replace("\n", " ").replace("  ", " ")`. -/
def cleanQuery (q : List Char) : List Char :=
  replaceTwoSpaces (replaceNewlines (pyStrip q))

/-- Whether a string contains two adjacent whitespace characters. -/
def hasAdjacentSpace : List Char → Bool
  | c1 :: c2 :: rest => (pyIsSpace c1 && pyIsSpace c2) || hasAdjacentSpace (c2 :: rest)
  | _ => false

/-- Whether `pat` is a prefix of `s` (boolean). -/
def startsList (pat s : List Char) : Bool :=
  match pat, s with
  | [], _ => true
  | _ :: _, [] => false
  | a :: as, b :: bs => a = b && startsList as bs

/-- Python substring containment `pat in s` for strings. -/
def containsSub (pat : List Char) : List Char → Bool
  | [] => pat.isEmpty
  | c :: rest => startsList pat (c :: rest) || containsSub pat rest

/-- Python `s.endswith(pat)`. -/
def endsList (pat s : List Char) : Bool :=
  startsList pat.reverse s.reverse

/-! ## Data model (`model.py`) -/

/-- `OutputFormat` string enum. -/
inductive OutputFormat
  | none | json | jsonc | table | tsv | yaml | yamlc
deriving DecidableEq

/-- The `.value` of each `OutputFormat` member. -/
def OutputFormat.value : OutputFormat → List Char
  | OutputFormat.none => "none".toList
  | OutputFormat.json => "json".toList
  | OutputFormat.jsonc => "jsonc".toList
  | OutputFormat.table => "table".toList
  | OutputFormat.tsv => "tsv".toList
  | OutputFormat.yaml => "yaml".toList
  | OutputFormat.yamlc => "yamlc".toList

/-- `OutputFormat.extension()`. -/
def OutputFormat.extension : OutputFormat → List Char
  | OutputFormat.none => "".toList
  | OutputFormat.json => ".json".toList
  | OutputFormat.jsonc => ".json".toList
  | OutputFormat.table => ".txt".toList
  | OutputFormat.tsv => ".tsv".toList
  | OutputFormat.yaml => ".yaml".toList
  | OutputFormat.yamlc => ".yaml".toList

/-- `CompressionType` string enum. -/
inductive CompressionType
  | gzip | zip
deriving DecidableEq

/-- The `OutputConfig` dataclass fields. -/
structure OutputConfig where
  format : OutputFormat
  query : Option (List Char)
  file : Option (List Char)
  compression : Option CompressionType
deriving DecidableEq

/-- The `QueryConfig` dataclass fields. -/
structure QueryConfig where
  file : List Char
  output : Option (List OutputConfig)
deriving DecidableEq

/-- The `KQLConfig` dataclass; `queries` defaults to `None` in the source. -/
structure KQLConfig where
  version : List Char
  queries : Option (List QueryConfig)
deriving DecidableEq

/-- Exceptions the embedded code can raise. -/
inductive PyError
  | valueError
  | calledProcessError
  | fileNotFoundError
  | osError
deriving DecidableEq

/-- Python truthiness of an optional string (`None` and `""` are falsy). -/
def optStrTruthy : Option (List Char) → Bool
  | Option.none => false
  | Option.some s => !s.isEmpty

/-- Python truthiness of an optional list (`None` and `[]` are falsy). -/
def optListTruthy {α : Type} : Option (List α) → Bool
  | Option.none => false
  | Option.some l => !l.isEmpty

/-- `OutputConfig.__post_init__`: reject whitespace in a truthy `file`. -/
def mkOutputConfig (format : OutputFormat) (query file : Option (List Char))
    (compression : Option CompressionType) : Except PyError OutputConfig :=
  if optStrTruthy file && (file.getD []).any pyIsSpace then
    Except.error PyError.valueError
  else
    Except.ok (OutputConfig.mk format query file compression)

/-- `QueryConfig.__post_init__`: require the `.kql` extension, then reject
whitespace in the path. -/
def mkQueryConfig (file : List Char) (output : Option (List OutputConfig)) :
    Except PyError QueryConfig :=
  if !(endsList ".kql".toList file) then Except.error PyError.valueError
  else if file.any pyIsSpace then Except.error PyError.valueError
  else Except.ok (QueryConfig.mk file output)

/-! ## Output resolution and discovery (`config.py`) -/

/-- The default single-element output list used when no configuration entry
applies: JSON to console, no filter, no file, no compression. -/
def defaultJson : OutputConfig :=
  OutputConfig.mk OutputFormat.json Option.none Option.none Option.none

/-- The matching test of `get_output_configs_for_query`: the queried file
equals the entry path's basename, or one of the variations
`file`, `*/file`, `**/file` occurs as a substring (Python `in`) of the
entry path. -/
def matchesQuery (file qfile : List Char) : Bool :=
  let variations := [file, pyJoin "*".toList file, "**/".toList ++ file]
  file == osBasename qfile || variations.any (fun v => containsSub v qfile)

/-- The entry-scanning loop of `get_output_configs_for_query`: the first
matching entry with a truthy `output` wins; falling through yields the
default JSON output. -/
def findOutputs (file : List Char) : List QueryConfig → List OutputConfig
  | [] => [defaultJson]
  | q :: rest =>
    if matchesQuery file q.file && optListTruthy q.output then q.output.getD []
    else findOutputs file rest

/-- `get_output_configs_for_query(config, file)`: scan `config.queries` when
truthy; otherwise (or on fall-through) return the default JSON output. -/
def get_output_configs_for_query (config : KQLConfig) (file : List Char) :
    List OutputConfig :=
  match config.queries with
  | Option.none => [defaultJson]
  | Option.some qs => findOutputs file qs

/-- Filesystem oracles for discovery and execution. `walkKql` stands for the
`os.walk` enumeration of `.kql` files used in the no-queries-configured mode. -/
structure FSEnv where
  isFile : List Char → Bool
  pathExists : List Char → Bool
  walkKql : List Char → List (List Char)

/-- The configured-queries loop of `get_applicable_files`: keep each entry's
path verbatim when `folder/path` is a file, otherwise skip it (a warning is
logged in the source). -/
def applicableLoop (fs : FSEnv) (folder : List Char) :
    List QueryConfig → List (List Char)
  | [] => []
  | q :: rest =>
    if fs.isFile (pyJoin folder q.file) then
      q.file :: applicableLoop fs folder rest
    else applicableLoop fs folder rest

/-- `get_applicable_files(folder_path, config)`: walk the folder when
`config.queries` is falsy, else keep exactly the configured files that exist. -/
def get_applicable_files (fs : FSEnv) (folder : List Char) (config : KQLConfig) :
    List (List Char) :=
  match config.queries with
  | Option.none => fs.walkKql folder
  | Option.some qs =>
    if qs.isEmpty then fs.walkKql folder
    else applicableLoop fs folder qs

/-! ## Execution (`execute.py`) -/

/-- Oracles for the external collaborators of `execute_query`: the `az`
subprocess (`runEngine` maps the full command to its stdout or a
`CalledProcessError`), directory creation, file writes, the two compression
primitives and file removal. -/
structure ExecEnv where
  runEngine : List (List Char) → Except PyError (List Char)
  makedirs : List Char → Except PyError Unit
  writeFile : List Char → List Char → Except PyError Unit
  gzipFile : List Char → Except PyError Unit
  zipFile : List Char → Except PyError Unit
  removeFile : List Char → Except PyError Unit

/-- `os.makedirs(path, exist_ok=True)`: raises `FileNotFoundError` on the
empty path (fixed Python semantics); otherwise behaves as the oracle says. -/
def osMakedirs (env : ExecEnv) (path : List Char) : Except PyError Unit :=
  if path.isEmpty then Except.error PyError.fileNotFoundError
  else env.makedirs path

/-- The `az monitor log-analytics query` command without the optional
`--query` filter argument. -/
def buildCmdNoFilter (queryPath wsId : List Char) (fmt : OutputConfig) :
    List (List Char) :=
  ["az".toList, "monitor".toList, "log-analytics".toList, "query".toList,
   "-w".toList, wsId, "--analytics-query".toList, '@' :: queryPath,
   "--output".toList, fmt.format.value]

/-- The full command of `execute_query`: the base command, extended with
`--query <cleaned filter>` when `fmt.query` is truthy. -/
def buildCmd (queryPath wsId : List Char) (fmt : OutputConfig) :
    List (List Char) :=
  match fmt.query with
  | Option.none => buildCmdNoFilter queryPath wsId fmt
  | Option.some q =>
    if q.isEmpty then buildCmdNoFilter queryPath wsId fmt
    else buildCmdNoFilter queryPath wsId fmt ++ ["--query".toList, cleanQuery q]

/-- The body of one non-`none` loop iteration of `execute_query`, after the
engine call: console display when `fmt.file` is falsy, else directory
creation, file write and optional compression; `false` when any step raises. -/
def processSpecCore (env : ExecEnv) (queryPath wsId : List Char)
    (fmt : OutputConfig) : Bool :=
  match env.runEngine (buildCmd queryPath wsId fmt) with
  | Except.error _ => false
  | Except.ok out =>
    match fmt.file with
    | Option.none => true
    | Option.some f =>
      if f.isEmpty then true
      else
        match osMakedirs env (osDirname f) with
        | Except.error _ => false
        | Except.ok _ =>
          match env.writeFile f (pyStrip out) with
          | Except.error _ => false
          | Except.ok _ =>
            match fmt.compression with
            | Option.none => true
            | Option.some CompressionType.gzip =>
              match env.gzipFile f with
              | Except.error _ => false
              | Except.ok _ => (env.removeFile f).isOk
            | Option.some CompressionType.zip =>
              match env.zipFile f with
              | Except.error _ => false
              | Except.ok _ => (env.removeFile f).isOk

/-- One loop iteration of `execute_query`: a `format=none` spec is skipped
with no engine call; any other spec invokes the engine exactly once (the
second component records the commands invoked). -/
def processSpec (env : ExecEnv) (queryPath wsId : List Char)
    (fmt : OutputConfig) : Bool × List (List (List Char)) :=
  if fmt.format = OutputFormat.none then (true, [])
  else (processSpecCore env queryPath wsId fmt, [buildCmd queryPath wsId fmt])

/-- The `for fmt in output_configs` loop with the surrounding `try`/`except`:
the first raising spec ends processing and the whole call reports failure;
later specs are not attempted. -/
def execLoop (env : ExecEnv) (queryPath wsId : List Char) :
    List OutputConfig → Bool × List (List (List Char))
  | [] => (true, [])
  | fmt :: rest =>
    let r := processSpec env queryPath wsId fmt
    if r.fst then
      let r2 := execLoop env queryPath wsId rest
      (r2.fst, r.snd ++ r2.snd)
    else (false, r.snd)

/-- `execute_query` from the resolved output list down (source lines 28-119):
an empty list is reported as an error (`return False`); otherwise the loop
result decides success. -/
def execute_query_outputs (env : ExecEnv) (queryPath wsId : List Char)
    (outs : List OutputConfig) : Bool :=
  if outs.isEmpty then false
  else (execLoop env queryPath wsId outs).fst

/-- `execute_query(folder_path, query_file, workspace_id, config)`: fail when
the query path does not exist, else resolve the outputs and run the loop. -/
def execute_query (fs : FSEnv) (env : ExecEnv) (folder queryFile wsId : List Char)
    (config : KQLConfig) : Bool :=
  let queryPath := pyJoin folder queryFile
  if fs.pathExists queryPath then
    execute_query_outputs env queryPath wsId
      (get_output_configs_for_query config queryFile)
  else false

/-- The orchestration of `main.py` after config loading: exit 0 when no
applicable files, else run every file and exit 1 iff any file failed. -/
def mainRun (fs : FSEnv) (env : ExecEnv) (folder wsId : List Char)
    (config : KQLConfig) : Nat :=
  let files := get_applicable_files fs folder config
  if files.isEmpty then 0
  else
    let failCount :=
      (files.filter (fun f => execute_query fs env folder f wsId config = false)).length
    if failCount > 0 then 1 else 0

/-! ## Concrete environments and configurations used to instantiate theorems -/

/-- An environment in which every external operation succeeds and the engine
always returns the output `"r"`. -/
def envAllOk : ExecEnv :=
  ExecEnv.mk (fun _ => Except.ok "r".toList) (fun _ => Except.ok ())
    (fun _ _ => Except.ok ()) (fun _ => Except.ok ()) (fun _ => Except.ok ())
    (fun _ => Except.ok ())

/-- An environment whose engine fails (non-zero exit) exactly on commands
carrying the `json` output format argument. -/
def envFailJson : ExecEnv :=
  ExecEnv.mk
    (fun cmd =>
      if cmd.contains "json".toList then Except.error PyError.calledProcessError
      else Except.ok "r".toList)
    (fun _ => Except.ok ()) (fun _ _ => Except.ok ()) (fun _ => Except.ok ())
    (fun _ => Except.ok ()) (fun _ => Except.ok ())

/-- A filesystem on which no file exists. -/
def fsNone : FSEnv := FSEnv.mk (fun _ => false) (fun _ => false) (fun _ => [])

/-- A table-to-console output spec. -/
def tableOut : OutputConfig :=
  OutputConfig.mk OutputFormat.table Option.none Option.none Option.none

/-- A `format=none` output spec. -/
def specNone : OutputConfig :=
  OutputConfig.mk OutputFormat.none Option.none Option.none Option.none

/-- A `jsonc`-to-console output spec. -/
def specJsonc : OutputConfig :=
  OutputConfig.mk OutputFormat.jsonc Option.none Option.none Option.none

/-- A `json` output spec writing to `out/out.json` with gzip compression. -/
def specJsonGzip : OutputConfig :=
  OutputConfig.mk OutputFormat.json Option.none (Option.some "out/out.json".toList)
    (Option.some CompressionType.gzip)

/-- A `tsv`-to-console output spec. -/
def specTsv : OutputConfig :=
  OutputConfig.mk OutputFormat.tsv Option.none Option.none Option.none

/-- A `json` output spec whose destination is the bare filename `out.json`. -/
def specBare : OutputConfig :=
  OutputConfig.mk OutputFormat.json Option.none (Option.some "out.json".toList)
    Option.none

/-- A configuration whose single entry `prefix_x.kql` contains `x.kql` only
as a substring. -/
def cfgSubstring : KQLConfig :=
  KQLConfig.mk "1.0".toList
    (Option.some [QueryConfig.mk "prefix_x.kql".toList (Option.some [tableOut])])

/-- A configuration whose single entry `other.kql` matches no variation of
`x.kql`. -/
def cfgNoMatch : KQLConfig :=
  KQLConfig.mk "1.0".toList
    (Option.some [QueryConfig.mk "other.kql".toList (Option.some [tableOut])])

/-- A configuration naming only the file `missing.kql`. -/
def cfgMissing : KQLConfig :=
  KQLConfig.mk "1.0".toList
    (Option.some [QueryConfig.mk "missing.kql".toList Option.none])

/-! ## Helper lemmas -/

theorem findOutputs_ne_nil (file : List Char) :
    ∀ qs : List QueryConfig, findOutputs file qs ≠ [] := by
  intro qs
  induction qs with
  | nil => simp [findOutputs]
  | cons q rest ih =>
    by_cases hm : (matchesQuery file q.file && optListTruthy q.output) = true
    · rw [findOutputs, if_pos hm]
      cases hq : q.output with
      | none => rw [hq] at hm; simp [optListTruthy] at hm
      | some l =>
        rw [hq] at hm
        simp only [optListTruthy, Bool.and_eq_true] at hm
        simp only [Option.getD_some]
        intro hl
        rw [hl] at hm
        simp at hm
    · rw [findOutputs, if_neg hm]
      exact ih

theorem get_output_configs_ne_nil (config : KQLConfig) (file : List Char) :
    get_output_configs_for_query config file ≠ [] := by
  simp only [get_output_configs_for_query]
  cases config.queries with
  | none => simp
  | some qs => exact findOutputs_ne_nil file qs

theorem findOutputs_default (file : List Char) :
    ∀ qs : List QueryConfig,
      (∀ q ∈ qs, matchesQuery file q.file = false ∨ optListTruthy q.output = false) →
      findOutputs file qs = [defaultJson] := by
  intro qs
  induction qs with
  | nil => intro _; rfl
  | cons q rest ih =>
    intro h
    have hq := h q (List.mem_cons_self q rest)
    have hcond : ¬((matchesQuery file q.file && optListTruthy q.output) = true) := by
      rcases hq with h1 | h1 <;> simp [h1]
    rw [findOutputs, if_neg hcond]
    exact ih (fun g hg => h g (List.mem_cons_of_mem q hg))

theorem replaceTwoSpaces_mem :
    ∀ l : List Char, ∀ c ∈ replaceTwoSpaces l, c = ' ' ∨ c ∈ l
  | [] => by simp [replaceTwoSpaces]
  | [c0] => by
    intro c hc
    simp only [replaceTwoSpaces, List.mem_singleton] at hc
    exact Or.inr (by simp [hc])
  | c1 :: c2 :: rest => by
    intro c hc
    by_cases h : c1 = ' ' ∧ c2 = ' '
    · rw [replaceTwoSpaces, if_pos h] at hc
      rcases List.mem_cons.mp hc with h1 | h2
      · exact Or.inl h1
      · rcases replaceTwoSpaces_mem rest c h2 with h3 | h4
        · exact Or.inl h3
        · exact Or.inr (by simp [h4])
    · rw [replaceTwoSpaces, if_neg h] at hc
      rcases List.mem_cons.mp hc with h1 | h2
      · exact Or.inr (by simp [h1])
      · rcases replaceTwoSpaces_mem (c2 :: rest) c h2 with h3 | h4
        · exact Or.inl h3
        · exact Or.inr (by
            rcases List.mem_cons.mp h4 with h5 | h6
            · simp [h5]
            · simp [h6])

theorem cleanQuery_no_newline (q : List Char) : ∀ c ∈ cleanQuery q, c ≠ '\n' := by
  intro c hc
  rcases replaceTwoSpaces_mem _ c hc with h | h
  · rw [h]; decide
  · simp only [replaceNewlines, List.mem_map] at h
    obtain ⟨a, _, ha⟩ := h
    intro hcn
    subst hcn
    split at ha
    · exact absurd ha (by decide)
    · rename_i hne
      exact hne ha

theorem processSpec_none (env : ExecEnv) (qp ws : List Char) (fmt : OutputConfig)
    (h : fmt.format = OutputFormat.none) :
    processSpec env qp ws fmt = (true, []) := by
  simp [processSpec, h]

theorem processSpec_snd (env : ExecEnv) (qp ws : List Char) (fmt : OutputConfig)
    (h : fmt.format ≠ OutputFormat.none) :
    (processSpec env qp ws fmt).snd = [buildCmd qp ws fmt] := by
  simp [processSpec, h]

theorem execLoop_all_ok (env : ExecEnv) (qp ws : List Char) :
    ∀ specs : List OutputConfig,
      (∀ fmt ∈ specs, (processSpec env qp ws fmt).fst = true) →
      execLoop env qp ws specs =
        (true, (specs.filter (fun f => f.format != OutputFormat.none)).map (buildCmd qp ws)) := by
  intro specs
  induction specs with
  | nil => intro _; simp [execLoop]
  | cons fmt rest ih =>
    intro h
    have hrest := ih (fun f hf => h f (List.mem_cons_of_mem fmt hf))
    have h1 : (processSpec env qp ws fmt).fst = true := h fmt (List.mem_cons_self fmt rest)
    by_cases hn : fmt.format = OutputFormat.none
    · have hps := processSpec_none env qp ws fmt hn
      simp only [execLoop, hps, hrest]
      simp [List.filter_cons, hn]
    · have h2 := processSpec_snd env qp ws fmt hn
      simp only [execLoop, h1, if_true, hrest, h2]
      simp [List.filter_cons, hn]

theorem execLoop_fail (env : ExecEnv) (qp ws : List Char) :
    ∀ (pre : List OutputConfig) (bad : OutputConfig) (post : List OutputConfig),
      (∀ f ∈ pre, (processSpec env qp ws f).fst = true) →
      (processSpec env qp ws bad).fst = false →
      execLoop env qp ws (pre ++ bad :: post) =
        (false, (execLoop env qp ws pre).snd ++ (processSpec env qp ws bad).snd) := by
  intro pre
  induction pre with
  | nil =>
    intro bad post _ hbad
    simp only [List.nil_append, execLoop, hbad]
    simp [execLoop]
  | cons f pre' ih =>
    intro bad post hpre hbad
    have hf := hpre f (List.mem_cons_self f pre')
    have hrec := ih bad post (fun g hg => hpre g (List.mem_cons_of_mem f hg)) hbad
    simp only [List.cons_append, execLoop, hf, if_true, List.append_eq]
    rw [hrec]
    simp [List.append_assoc]

theorem applicableLoop_eq (fs : FSEnv) (folder : List Char) :
    ∀ qs : List QueryConfig,
      applicableLoop fs folder qs =
        (qs.filter (fun q => fs.isFile (pyJoin folder q.file))).map QueryConfig.file := by
  intro qs
  induction qs with
  | nil => rfl
  | cons q rest ih =>
    by_cases h : fs.isFile (pyJoin folder q.file) = true
    · simp [applicableLoop, h, List.filter_cons, ih]
    · simp [applicableLoop, h, List.filter_cons, ih]

theorem osDirname_eq_nil (f : List Char) (h : ∀ c ∈ f, c ≠ '/') :
    osDirname f = [] := by
  have hdw : List.dropWhile (fun c => !(c == '/')) f.reverse = [] := by
    rw [List.dropWhile_eq_nil_iff]
    intro c hc
    have hne := h c (List.mem_reverse.mp hc)
    simp [hne]
  simp [osDirname, hdw]

/-! ## Claims -/

/-- C1 counterexample: on an empty output list `execute_query` returns
`false` (after logging an error), not `true` as claimed. -/
theorem c1_counterexample :
    execute_query_outputs envAllOk ("q.kql".toList) ("w".toList) [] = false := by
  rfl

/-- C1 (amended): for every query file, on an empty resolved output list
`execute_query` reports an error and returns failure; moreover the resolver
never returns an empty list, so this branch is unreachable in the composed
program. -/
theorem c1_empty_outputs :
    (∀ env qp ws, execute_query_outputs env qp ws [] = false) ∧
    (∀ config file, get_output_configs_for_query config file ≠ []) := by
  refine ⟨fun env qp ws => rfl, fun config file => get_output_configs_ne_nil config file⟩

/-- C2 counterexample: the filter `"a   b"` (three consecutive spaces) is
passed to `--query` as `"a  b"`, which still contains two adjacent
whitespace characters, refuting the claimed full collapse. -/
theorem c2_counterexample :
    cleanQuery ("a   b".toList) = "a  b".toList ∧
    hasAdjacentSpace (cleanQuery ("a   b".toList)) = true ∧
    buildCmd ("p.kql".toList) ("w".toList)
        (OutputConfig.mk OutputFormat.json (Option.some ("a   b".toList))
          Option.none Option.none) =
      buildCmdNoFilter ("p.kql".toList) ("w".toList)
        (OutputConfig.mk OutputFormat.json (Option.some ("a   b".toList))
          Option.none Option.none) ++
      ["--query".toList, "a  b".toList] := by
  exact ⟨by decide, by decide, by decide⟩

/-- C2 (amended): for every spec with a non-empty filter expression, the
`--query` argument is the expression stripped, with each newline replaced by
a space and one left-to-right pass replacing non-overlapping space pairs by
single spaces; the passed string contains no newline, but adjacent
whitespace can remain. -/
theorem c2_clean_filter (qp ws : List Char) (fmt : OutputConfig) (q : List Char)
    (hq : fmt.query = Option.some q) (hne : q ≠ []) :
    buildCmd qp ws fmt =
      buildCmdNoFilter qp ws fmt ++ ["--query".toList, cleanQuery q] ∧
    ∀ c ∈ cleanQuery q, c ≠ '\n' := by
  constructor
  · simp only [buildCmd, hq]
    rw [if_neg (by simpa using hne)]
  · exact cleanQuery_no_newline q

/-- C2 witness: instantiating the amended claim at the filter `"a \n b"`. -/
theorem c2_clean_filter_witness :
    buildCmd ("p.kql".toList) ("w".toList)
        (OutputConfig.mk OutputFormat.json (Option.some ("a \n b".toList))
          Option.none Option.none) =
      buildCmdNoFilter ("p.kql".toList) ("w".toList)
        (OutputConfig.mk OutputFormat.json (Option.some ("a \n b".toList))
          Option.none Option.none) ++
      ["--query".toList, cleanQuery ("a \n b".toList)] ∧
    ∀ c ∈ cleanQuery ("a \n b".toList), c ≠ '\n' :=
  c2_clean_filter ("p.kql".toList) ("w".toList)
    (OutputConfig.mk OutputFormat.json (Option.some ("a \n b".toList))
      Option.none Option.none)
    ("a \n b".toList) rfl (by decide)

/-- C3 counterexample: the entry `prefix_x.kql` merely contains `x.kql` as a
substring, yet its outputs are selected for the file `x.kql` instead of the
default, refuting "never selected". -/
theorem c3_counterexample :
    get_output_configs_for_query cfgSubstring ("x.kql".toList) = [tableOut] ∧
    tableOut ≠ defaultJson := by
  exact ⟨by decide, by decide⟩

/-- C3 (amended): an entry is selected when the queried file equals the
entry path's basename or any of `file`, `*/file`, `**/file` occurs as a
plain substring of the entry path; in particular substring containment alone
(entry `prefix_x.kql` for file `x.kql`) selects the entry when its outputs
are non-empty. -/
theorem c3_substring_selects (version : List Char) (entry : QueryConfig)
    (file : List Char) (outs : List OutputConfig)
    (ho : entry.output = Option.some outs) (hne : outs ≠ [])
    (hsub : containsSub file entry.file = true) :
    get_output_configs_for_query (KQLConfig.mk version (Option.some [entry]))
      file = outs := by
  have hm : matchesQuery file entry.file = true := by
    simp [matchesQuery, hsub]
  have ht : optListTruthy (Option.some outs) = true := by
    cases outs with
    | nil => exact absurd rfl hne
    | cons a l => rfl
  simp only [get_output_configs_for_query, findOutputs, ho, Option.getD_some]
  rw [hm, ht]
  simp

/-- C3 witness: instantiating the amended claim at the substring-only entry
`prefix_x.kql` and file `x.kql`. -/
theorem c3_substring_selects_witness :
    get_output_configs_for_query
      (KQLConfig.mk ("1.0".toList)
        (Option.some [QueryConfig.mk ("prefix_x.kql".toList)
          (Option.some [tableOut])]))
      ("x.kql".toList) = [tableOut] :=
  c3_substring_selects ("1.0".toList)
    (QueryConfig.mk ("prefix_x.kql".toList) (Option.some [tableOut]))
    ("x.kql".toList) [tableOut] rfl (by decide) (by decide)

/-- C4: if the specs split as `pre ++ bad :: post` with every spec of `pre`
succeeding and `bad` raising (engine, write or compression), the whole query
file is reported failed, and the trace shows no engine commands beyond those
of `pre` and `bad` — the specs of `post` are never attempted. -/
theorem c4_fail_fast (env : ExecEnv) (qp ws : List Char)
    (pre post : List OutputConfig) (bad : OutputConfig)
    (hpre : ∀ f ∈ pre, (processSpec env qp ws f).fst = true)
    (hbad : (processSpec env qp ws bad).fst = false) :
    execute_query_outputs env qp ws (pre ++ bad :: post) = false ∧
    execLoop env qp ws (pre ++ bad :: post) =
      (false, (execLoop env qp ws pre).snd ++ (processSpec env qp ws bad).snd) := by
  have h := execLoop_fail env qp ws pre bad post hpre hbad
  refine ⟨?_, h⟩
  have hne : ¬((pre ++ bad :: post).isEmpty = true) := by
    simp
  simp only [execute_query_outputs, if_neg hne, h]

/-- C4 witness: a console `jsonc` spec succeeds, then the second spec's
engine call fails; the whole file fails although the first spec already
produced output, and the trailing `tsv` spec is never invoked. -/
theorem c4_fail_fast_witness :
    execute_query_outputs envFailJson ("p.kql".toList) ("w".toList)
      ([specJsonc] ++ specJsonGzip :: [specTsv]) = false ∧
    execLoop envFailJson ("p.kql".toList) ("w".toList)
      ([specJsonc] ++ specJsonGzip :: [specTsv]) =
      (false, (execLoop envFailJson ("p.kql".toList) ("w".toList) [specJsonc]).snd ++
        (processSpec envFailJson ("p.kql".toList) ("w".toList) specJsonGzip).snd) :=
  c4_fail_fast envFailJson ("p.kql".toList) ("w".toList) [specJsonc] [specTsv]
    specJsonGzip
    (by
      intro f hf
      rw [List.mem_singleton] at hf
      subst hf
      decide)
    (by decide)

/-- C5: the resolver never returns an empty list, and when no entry matches
or every matching entry has a falsy (absent or empty) output list it returns
exactly the single default `{format: json}` spec. -/
theorem c5_default_resolution (config : KQLConfig) (file : List Char)
    (h : ∀ q ∈ config.queries.getD [],
      matchesQuery file q.file = false ∨ optListTruthy q.output = false) :
    get_output_configs_for_query config file = [defaultJson] ∧
    ∀ cfg f, get_output_configs_for_query cfg f ≠ [] := by
  refine ⟨?_, fun cfg f => get_output_configs_ne_nil cfg f⟩
  cases hq : config.queries with
  | none => simp [get_output_configs_for_query, hq]
  | some qs =>
    rw [hq] at h
    simp only [get_output_configs_for_query, hq]
    exact findOutputs_default file qs (by simpa using h)

/-- C5 witness: instantiating at a configuration whose single entry
`other.kql` does not match the file `x.kql`. -/
theorem c5_default_resolution_witness :
    get_output_configs_for_query cfgNoMatch ("x.kql".toList) = [defaultJson] :=
  (c5_default_resolution cfgNoMatch ("x.kql".toList) (by decide)).1

/-- C6: `format=none` specs invoke no engine command and always succeed;
when every non-`none` spec completes without raising, the loop succeeds and
the engine is invoked exactly once per non-`none` spec, in declaration
order, so `execute_query` returns `true` for a non-empty spec list. -/
theorem c6_engine_invocations (env : ExecEnv) (qp ws : List Char)
    (specs : List OutputConfig)
    (h : ∀ fmt ∈ specs, fmt.format ≠ OutputFormat.none →
      (processSpec env qp ws fmt).fst = true) :
    execLoop env qp ws specs =
      (true, (specs.filter (fun f => f.format != OutputFormat.none)).map (buildCmd qp ws)) ∧
    (specs ≠ [] → execute_query_outputs env qp ws specs = true) ∧
    (∀ fmt, fmt.format = OutputFormat.none → processSpec env qp ws fmt = (true, [])) := by
  have hall : ∀ fmt ∈ specs, (processSpec env qp ws fmt).fst = true := by
    intro fmt hf
    by_cases hn : fmt.format = OutputFormat.none
    · rw [processSpec_none env qp ws fmt hn]
    · exact h fmt hf hn
  have hloop := execLoop_all_ok env qp ws specs hall
  refine ⟨hloop, ?_, fun fmt hn => processSpec_none env qp ws fmt hn⟩
  intro hne
  have hempty : ¬(specs.isEmpty = true) := by
    simpa using hne
  simp only [execute_query_outputs, if_neg hempty, hloop]

/-- C6 witness: a `none` spec followed by a `jsonc` spec under an
all-succeeding engine: exactly one invocation, and the file succeeds. -/
theorem c6_engine_invocations_witness :
    execLoop envAllOk ("p.kql".toList) ("w".toList) [specNone, specJsonc] =
      (true, ([specNone, specJsonc].filter
        (fun f => f.format != OutputFormat.none)).map
        (buildCmd ("p.kql".toList) ("w".toList))) ∧
    execute_query_outputs envAllOk ("p.kql".toList) ("w".toList)
      [specNone, specJsonc] = true := by
  have h := c6_engine_invocations envAllOk ("p.kql".toList) ("w".toList)
    [specNone, specJsonc] (by decide)
  exact ⟨h.1, h.2.1 (by decide)⟩

/-- C7: with a non-empty configured query list, discovery returns exactly
the configured paths (verbatim) that exist on disk, silently excluding the
missing ones, and when the result is empty the run exits with code 0. -/
theorem c7_discovery (fs : FSEnv) (env : ExecEnv) (folder wsId : List Char)
    (config : KQLConfig) (qs : List QueryConfig)
    (h1 : config.queries = Option.some qs) (h2 : qs ≠ []) :
    get_applicable_files fs folder config =
      (qs.filter (fun q => fs.isFile (pyJoin folder q.file))).map QueryConfig.file ∧
    (get_applicable_files fs folder config = [] →
      mainRun fs env folder wsId config = 0) := by
  have hempty : ¬(qs.isEmpty = true) := by
    simpa using h2
  have hg : get_applicable_files fs folder config = applicableLoop fs folder qs := by
    simp only [get_applicable_files, h1, if_neg hempty]
  refine ⟨hg.trans (applicableLoop_eq fs folder qs), ?_⟩
  intro hnil
  simp only [mainRun, hnil, List.isEmpty_nil, if_true]

/-- C7 witness: the configuration names only `missing.kql`, absent from
disk; discovery returns the empty list and the run exits 0. -/
theorem c7_discovery_witness :
    get_applicable_files fsNone ("folder".toList) cfgMissing = [] ∧
    mainRun fsNone envAllOk ("folder".toList) ("w".toList) cfgMissing = 0 := by
  have h := c7_discovery fsNone envAllOk ("folder".toList) ("w".toList)
    cfgMissing [QueryConfig.mk ("missing.kql".toList) Option.none] rfl (by decide)
  have h1 : get_applicable_files fsNone ("folder".toList) cfgMissing = [] := by
    rw [h.1]
    decide
  exact ⟨h1, h.2 h1⟩

/-- C8: any string containing a whitespace character is rejected with a
`ValueError` both as an `OutputConfig.file` and as a `QueryConfig.file`;
construction never succeeds. -/
theorem c8_whitespace_rejected (s : List Char) (hs : s.any pyIsSpace = true) :
    (∀ fmt q comp, (mkOutputConfig fmt q (Option.some s) comp).isOk = false) ∧
    (∀ out, (mkQueryConfig s out).isOk = false) := by
  constructor
  · intro fmt q comp
    have hne : s.isEmpty = false := by
      cases s with
      | nil => simp at hs
      | cons a l => rfl
    have hcond : (optStrTruthy (Option.some s) && (Option.getD (Option.some s) []).any pyIsSpace) = true := by
      simp [optStrTruthy, hne, hs]
    simp only [mkOutputConfig, hcond, if_true]
    rfl
  · intro out
    by_cases hk : (!(endsList ".kql".toList s)) = true
    · have hval : mkQueryConfig s out = Except.error PyError.valueError := by
        unfold mkQueryConfig
        rw [if_pos hk]
      rw [hval]
      rfl
    · have hval : mkQueryConfig s out = Except.error PyError.valueError := by
        unfold mkQueryConfig
        rw [if_neg hk, if_pos hs]
      rw [hval]
      rfl

/-- C8 witness: `"a b.json"` (embedded space) fails construction in both
positions. -/
theorem c8_whitespace_rejected_witness :
    (mkOutputConfig OutputFormat.json Option.none
      (Option.some ("a b.json".toList)) Option.none).isOk = false ∧
    (mkQueryConfig ("a b.json".toList) Option.none).isOk = false := by
  have h := c8_whitespace_rejected ("a b.json".toList) (by decide)
  exact ⟨h.1 OutputFormat.json Option.none Option.none, h.2 Option.none⟩

/-- C9: a non-empty destination containing no slash makes
`os.makedirs(os.path.dirname(file))` raise on the empty string, so the spec
fails and the whole query file is reported failed even though the engine
invocation succeeded; such a destination can never produce output. -/
theorem c9_bare_filename (env : ExecEnv) (qp ws : List Char)
    (fmt : OutputConfig) (f out : List Char)
    (hfmt : fmt.format ≠ OutputFormat.none)
    (hfile : fmt.file = Option.some f)
    (hne : f ≠ [])
    (hslash : ∀ c ∈ f, c ≠ '/')
    (heng : env.runEngine (buildCmd qp ws fmt) = Except.ok out) :
    processSpec env qp ws fmt = (false, [buildCmd qp ws fmt]) ∧
    execute_query_outputs env qp ws [fmt] = false := by
  have hdir : osDirname f = [] := osDirname_eq_nil f hslash
  have hfne : ¬(f.isEmpty = true) := by
    simpa using hne
  have hcore : processSpecCore env qp ws fmt = false := by
    simp only [processSpecCore, heng, hfile, if_neg hfne, osMakedirs, hdir,
      List.isEmpty_nil, if_true]
  have hps : processSpec env qp ws fmt = (false, [buildCmd qp ws fmt]) := by
    simp [processSpec, hfmt, hcore]
  refine ⟨hps, ?_⟩
  simp [execute_query_outputs, execLoop, hps]

/-- C9 witness: destination `out.json` under an all-succeeding engine: the
spec and the whole single-spec file fail. -/
theorem c9_bare_filename_witness :
    processSpec envAllOk ("p.kql".toList) ("w".toList) specBare =
      (false, [buildCmd ("p.kql".toList) ("w".toList) specBare]) ∧
    execute_query_outputs envAllOk ("p.kql".toList) ("w".toList) [specBare] = false :=
  c9_bare_filename envAllOk ("p.kql".toList) ("w".toList) specBare
    ("out.json".toList) ("r".toList) (by decide) rfl (by decide) (by decide) rfl

/-- C10: an `OutputConfig` with `file = ""` is constructed successfully (the
whitespace check only fires on truthy values), and at execution an
empty-string destination behaves exactly like an absent one: console
output, no directory creation, no file write. -/
theorem c10_empty_file (fmt : OutputFormat) (q : Option (List Char))
    (c : Option CompressionType) :
    mkOutputConfig fmt q (Option.some []) c =
      Except.ok (OutputConfig.mk fmt q (Option.some []) c) ∧
    ∀ env qp ws,
      processSpec env qp ws (OutputConfig.mk fmt q (Option.some []) c) =
        processSpec env qp ws (OutputConfig.mk fmt q Option.none c) := by
  constructor
  · simp [mkOutputConfig, optStrTruthy]
  · intro env qp ws
    rfl

end KQL
